import Mathlib

/-!
Shallow embedding of the research-and-answer orchestrator in
`src/app/think.py` (deepsearch-4-all), together with theorems settling
the frozen claims about it.

The embedding models:
- the data model (`KnowledgeState`, `StepState`, `ObjectiveState`,
  statuses) — field defaults are modelled from the spec because
  `app/models/state.py` is not part of the shown source;
- the sentinel-substring policy of `_should_stop_objective`;
- the step loop of `_run_objective` as a fuel-indexed small-step
  function producing an event trace;
- the admission control and outer loop over detector rounds in
  `_think`;
- the knowledge-context construction of `_answer_user`;
- the digest rendering and proposal conversion of
  `_detect_new_objectives`;
- the chunk protocol of `think_stream` as an event trace over an
  arbitrary interleaving of the two consumer outputs.

Completion calls are external collaborators; they are modelled as
oracles (functions supplying the free text / structured results the
adapters would return).
-/

namespace DeepSearch

/-- `MAX_OBJECTIVES = 3` in `src/app/think.py`. -/
def MAX_OBJECTIVES : Nat := 3

/-- `MIN_STEPS = 3` in `src/app/think.py`. -/
def MIN_STEPS : Nat := 3

/-- `MAX_STEPS = 5` in `src/app/think.py`. -/
def MAX_STEPS : Nat := 5

/-- Modelled from the spec: `ObjectiveStatus` enum of
`app.models.state` (not under `src/`): PENDING, IN_PROGRESS,
COMPLETED, FAILED. -/
inductive ObjectiveStatus where
  | pending
  | in_progress
  | completed
  | failed
deriving DecidableEq, Repr

/-- A status is terminal when it is COMPLETED or FAILED. -/
def ObjectiveStatus.isTerminal : ObjectiveStatus → Bool
  | .completed => true
  | .failed => true
  | _ => false

/-- Modelled from the spec: `KnowledgeState` of `app.models.state`
(not under `src/`): an immutable fact record with `description`,
`short_name`, `source`. -/
structure KnowledgeState where
  description : String
  short_name : String
  source : String
deriving DecidableEq, Repr

/-- Modelled from the spec: `StepState` of `app.models.state` (not
under `src/`): `short_name` plus structured fields populated by the
research-step completion call; we keep the `short_name`, the only field
`think.py` reads. -/
structure StepState where
  short_name : String
deriving DecidableEq, Repr

/-- Modelled from the spec: `ObjectiveState` of `app.models.state`
(not under `src/`). Fields and defaults follow spec §3: `status`
defaults to PENDING between creation and the first tick of the runner;
`knowledges`, `steps` and `history` start empty; `answer` is optional
text, absent at creation. -/
structure ObjectiveState where
  completion_criteria : String
  description : String
  short_name : String
  status : ObjectiveStatus := .pending
  knowledges : List KnowledgeState := []
  steps : List StepState := []
  history : List String := []
  answer : Option String := none
deriving DecidableEq, Repr

/-- The apostrophe character. -/
def apos : Char := Char.ofNat 39

/-- The sentinel substring of `_should_stop_objective`:
`"can` `t answer"` (with an apostrophe between `can` and `t`). -/
def cantAnswer : String := "can" ++ String.singleton apos ++ "t answer"

/-- `needle` occurs as a contiguous run inside `hay` (the semantics of
the `in` operator of Python on strings, over the character lists). -/
def listContainsSub (needle : List Char) : List Char → Bool
  | [] => needle == []
  | c :: tl => needle.isPrefixOf (c :: tl) || listContainsSub needle tl

/-- The `needle in hay` test of Python on strings. -/
def pyIn (needle hay : String) : Bool :=
  listContainsSub needle.data hay.data

/-- The `s.lower()` method of Python, as character-wise lowercasing. -/
def pyLower (s : String) : String :=
  String.mk (s.data.map Char.toLower)

/-- Embeds the result-processing tail of `_should_stop_objective`
(`src/app/think.py` lines 500-505): given the free text `res` returned
by the stop-check completion call, return `none` ("not ready") when
`"can` `t answer"` (with an apostrophe between `can` and `t`) occurs in the lowercased text, else return the whole text
as the answer. -/
def shouldStopResult (res : String) : Option String :=
  if pyIn cantAnswer (pyLower res) then none else some res

/-- Observable events of one `_run_objective` execution: a status
assignment, a stop-check invocation (recording the steps count at the
moment of the call and the processed result), an answer assignment, or
the append of a new step. -/
inductive RunEvent where
  | statusSet (s : ObjectiveStatus)
  | stopCheck (stepCount : Nat) (result : Option String)
  | answerSet (answer : String)
  | stepAdded (step : StepState)
deriving DecidableEq, Repr

/-- Embeds the `while` loop of `_run_objective` (`src/app/think.py`
lines 419-450). `stopO n` is the free text the stop-check completion
call returns when invoked with `n` steps accumulated (then processed by
`shouldStopResult`, the embedding of `_should_stop_objective`);
`stepO n` is the `StepState` the `_new_step` structured completion
returns when `n` steps are accumulated. The fuel argument bounds the
number of iterations; every iteration that continues appends a step,
so `MAX_STEPS + 2` fuel is enough for every objective this program
creates (they all start with empty `steps`). -/
def runLoop (stopO : Nat → String) (stepO : Nat → StepState) :
    Nat → ObjectiveState → ObjectiveState × List RunEvent
  | 0, o => (o, [])
  | fuel + 1, o =>
    if o.status = .in_progress then
      if MIN_STEPS ≤ o.steps.length then
        match shouldStopResult (stopO o.steps.length) with
        | some ans =>
          ({ o with status := .completed, answer := some ans },
            [.stopCheck o.steps.length (some ans), .statusSet .completed,
              .answerSet ans])
        | none =>
          if MAX_STEPS ≤ o.steps.length then
            ({ o with status := .failed },
              [.stopCheck o.steps.length none, .statusSet .failed])
          else
            let next := runLoop stopO stepO fuel
              { o with steps := o.steps ++ [stepO o.steps.length] }
            (next.1,
              .stopCheck o.steps.length none ::
                .stepAdded (stepO o.steps.length) :: next.2)
      else
        if MAX_STEPS ≤ o.steps.length then
          ({ o with status := .failed }, [.statusSet .failed])
        else
          let next := runLoop stopO stepO fuel
            { o with steps := o.steps ++ [stepO o.steps.length] }
          (next.1, .stepAdded (stepO o.steps.length) :: next.2)
    else (o, [])

/-- Embeds `_run_objective` (`src/app/think.py` lines 398-452): set
the objective IN_PROGRESS, then drive the loop to a terminal status.
Returns the final objective together with the event trace of the
execution. -/
def runObjective (stopO : Nat → String) (stepO : Nat → StepState)
    (o : ObjectiveState) : ObjectiveState × List RunEvent :=
  let r := runLoop stopO stepO (MAX_STEPS + 2) { o with status := .in_progress }
  (r.1, .statusSet .in_progress :: r.2)

/-- The status assignments recorded in a trace, in order. -/
def statusSets (evs : List RunEvent) : List ObjectiveStatus :=
  evs.filterMap fun e =>
    match e with
    | .statusSet s => some s
    | _ => none

/-- The answer assignments recorded in a trace, in order. -/
def answerSets (evs : List RunEvent) : List String :=
  evs.filterMap fun e =>
    match e with
    | .answerSet a => some a
    | _ => none

/-- The number of step appends recorded in a trace. -/
def stepAddCount (evs : List RunEvent) : Nat :=
  (evs.filterMap fun e =>
    match e with
    | .stepAdded s => some s
    | _ => none).length

/-- The `_Objective` pydantic shape of `_detect_new_objectives`
(`src/app/think.py` lines 335-344). -/
structure DetectorTask where
  completion_criteria : String
  description : String
  short_name : String
deriving DecidableEq, Repr

/-- The `_Res` pydantic shape of `_detect_new_objectives` (lines
346-349): `tasks` carries at most 3 entries (`max_length=3`).
`validated_completion` returns only values conforming to the declared
shape (adapter contract, spec §6), so the bound is part of the type. -/
structure DetectorRes where
  tasks : List DetectorTask
  tasks_le_three : tasks.length ≤ 3

/-- Embeds the construction of a fresh `ObjectiveState` from one
detector task (`src/app/think.py` lines 388-395): only
`completion_criteria`, `description` and `short_name` are passed;
every other field keeps its default. -/
def objectiveFromTask (t : DetectorTask) : ObjectiveState :=
  { completion_criteria := t.completion_criteria
    description := t.description
    short_name := t.short_name }

/-- Embeds the returned value of `_detect_new_objectives` (lines
388-395): one fresh objective per validated task. -/
def detectNewObjectives (res : DetectorRes) : List ObjectiveState :=
  res.tasks.map objectiveFromTask

/-- Modelled from the spec: the textual rendering of a status value
inside an f-string (the enum of `app.models.state` is not under
`src/`). No claim depends on the exact text, only on incomplete
objectives being rendered with their status. -/
def statusStr : ObjectiveStatus → String
  | .pending => "ObjectiveStatus.PENDING"
  | .in_progress => "ObjectiveStatus.IN_PROGRESS"
  | .completed => "ObjectiveStatus.COMPLETED"
  | .failed => "ObjectiveStatus.FAILED"

/-- Python truthiness of an optional string (`if objective.answer`):
`None` and the empty string are falsy. -/
def pyTruthy : Option String → Bool
  | none => false
  | some s => !(s == "")

/-- Python rendering of an optional string inside an f-string: `None`
renders as the text "None". -/
def pyStr : Option String → String
  | none => "None"
  | some s => s

/-- Embeds line 360 of `src/app/think.py` (the first join of the
detector digest): objectives with a truthy `answer` rendered as
"description: answer" lines, in sequence order. -/
def digestAnswered (objs : List ObjectiveState) : List String :=
  (objs.filter fun o => pyTruthy o.answer).map fun o =>
    o.description ++ ": " ++ pyStr o.answer

/-- Embeds line 361 of `src/app/think.py` (the second join of the
detector digest): objectives without a truthy `answer` rendered as
"description: status" lines, in sequence order. -/
def digestUnanswered (objs : List ObjectiveState) : List String :=
  (objs.filter fun o => !pyTruthy o.answer).map fun o =>
    o.description ++ ": " ++ statusStr o.status

/-- Embeds the knowledge-context construction of `_answer_user`
(`src/app/think.py` lines 286-292): for every objective whose status
is COMPLETED, a block made of a heading with its `short_name` and its
answer text, joined with newlines. -/
def answersContext (objs : List ObjectiveState) : String :=
  String.intercalate "\n"
    ((objs.filter fun o => o.status = .completed).map fun o =>
      "## " ++ o.short_name ++ "\n" ++ pyStr o.answer)

/-- The synthesis knowledge blocks as the claim words them: one block
per objective whose status is COMPLETED (FAILED and all other statuses
excluded entirely), each block a heading of the `short_name` of the
objective followed by its answer text. Written from the words of the
spec, to be compared with `answersContext`, the embedding of the
source. -/
def claimKnowledgeBlocks : List ObjectiveState → List String
  | [] => []
  | o :: rest =>
    if o.status = .completed then
      ("## " ++ o.short_name ++ "\n" ++ pyStr o.answer) ::
        claimKnowledgeBlocks rest
    else claimKnowledgeBlocks rest

/-- The arguments of the single synthesis completion call issued by
`_answer_user`: the original user question and the knowledge context,
both interpolated into the system instruction (lines 295-319). -/
structure SynthesisCall where
  question : String
  knowledge : String
deriving DecidableEq, Repr

/-- Embeds `_answer_user` (`src/app/think.py` lines 278-321): build
the knowledge context, issue exactly one completion call carrying it
(`completionO` is the oracle for that call), and return the resulting
text verbatim. The call is issued unconditionally, also when no
objective is COMPLETED. -/
def answerUser (user_question : String) (objs : List ObjectiveState)
    (completionO : SynthesisCall → String) : SynthesisCall × String :=
  let call : SynthesisCall :=
    { question := user_question
      knowledge := answersContext objs }
  (call, completionO call)

/-- Embeds the seed (root) objective appended by `_think`
(`src/app/think.py` lines 181-194): the only objective created with a
pre-populated knowledge item, wrapping the raw user question. -/
def seedObjective (user_question : String) : ObjectiveState :=
  { completion_criteria := "User meaning is clear."
    description :=
      "Rephrase if needed. If it helps, cut the question into smaller parts."
    knowledges :=
      [{ description := user_question
         short_name := "User question"
         source := "User message" }]
    short_name := "Identify question" }

/-- Embeds the admission loop of `_think` (`src/app/think.py` lines
217-224): detector proposals are admitted one at a time, each
admission appending to the objectives sequence; admission stops as
soon as the objectives count reaches MAX_OBJECTIVES and the remainder
of the batch is discarded. Returns the admitted proposals and the
updated objectives sequence. -/
def admitObjectives (objectives : List ObjectiveState) :
    List ObjectiveState → List ObjectiveState × List ObjectiveState
  | [] => ([], objectives)
  | p :: rest =>
    if MAX_OBJECTIVES ≤ objectives.length then ([], objectives)
    else
      let r := admitObjectives (objectives ++ [p]) rest
      (p :: r.1, r.2)

/-- One wave of the worker pool: the quiescence poll of `_think`
(lines 212-214) returns only once every scheduled runner has driven
its objective to a terminal status, so a wave is modelled as running
every still-PENDING objective to termination in place. `stopO i` and
`stepO i` are the completion oracles of the runner of the objective at
position `i` of the sequence (positions are stable: the sequence is
append-only). -/
def runWave (stopO : Nat → Nat → String) (stepO : Nat → Nat → StepState) :
    Nat → List ObjectiveState → List ObjectiveState
  | _, [] => []
  | i, o :: rest =>
    (if o.status = .pending then (runObjective (stopO i) (stepO i) o).1
      else o) :: runWave stopO stepO (i + 1) rest

/-- Embeds the outer loop of `_think` (`src/app/think.py` lines
206-233). Per round: if any objective is PENDING or IN_PROGRESS, wait
for pool quiescence (run the wave), call the detector (`detectO` gives
the proposals of each round), admit proposals under the cap, and stop
when zero were admitted (the active-task count is zero at that point
by construction of the wave); otherwise exit the `while`. Returns the
final objectives, the snapshots of the objectives sequence observable
after each wave and after each admission, and whether the loop exited
by its own exit conditions (rather than exhausting fuel). -/
def thinkLoop (stopO : Nat → Nat → String) (stepO : Nat → Nat → StepState)
    (detectO : Nat → List DetectorTask) :
    Nat → Nat → List ObjectiveState →
      List ObjectiveState × List (List ObjectiveState) × Bool
  | 0, _, objs => (objs, [], false)
  | fuel + 1, round, objs =>
    if objs.any fun o => o.status == .in_progress || o.status == .pending then
      let objs1 := runWave stopO stepO 0 objs
      let adm := admitObjectives objs1 ((detectO round).map objectiveFromTask)
      if adm.1.isEmpty then (adm.2, [objs1, adm.2], true)
      else
        let rest := thinkLoop stopO stepO detectO fuel (round + 1) adm.2
        (rest.1, objs1 :: adm.2 :: rest.2.1, rest.2.2)
    else (objs, [], true)

/-- Embeds `_think` (`src/app/think.py` lines 170-275) at the
objectives level: seed the root objective, then run detector rounds
until quiescence. Fuel `MAX_OBJECTIVES + 1` always suffices because
every continuing round strictly grows the objectives sequence, which
is capped at MAX_OBJECTIVES. -/
def thinkRun (stopO : Nat → Nat → String) (stepO : Nat → Nat → StepState)
    (detectO : Nat → List DetectorTask) (user_question : String) :
    List ObjectiveState × List (List ObjectiveState) × Bool :=
  thinkLoop stopO stepO detectO (MAX_OBJECTIVES + 1) 0
    [seedObjective user_question]

/-- The shared usage counter pair (`app.models.chat_completion`,
consumed through `state.usage`). -/
structure Usage where
  prompt_tokens : Nat
  completion_tokens : Nat
deriving DecidableEq, Repr

/-- One chat-completion chunk as built inside `think_stream`,
restricted to the fields the claims observe: the usage payload, the
delta content, and the finish-reason marker. -/
structure Chunk where
  usage : Option Usage
  content : Option String
  finishReason : Option String
deriving DecidableEq, Repr

/-- The chunk `_consume_content` builds for one content item
(`src/app/think.py` lines 42-58): usage `None`, the item verbatim as
the delta content, no finish reason. -/
def contentChunk (s : String) : Chunk :=
  { usage := none
    content := some s
    finishReason := none }

/-- The chunk `_consume_thinking` builds for one thinking item (lines
64-80): usage `None`, the item wrapped in think tags, no finish
reason. -/
def thinkingChunk (s : String) : Chunk :=
  { usage := none
    content := some ("<think>" ++ s ++ "</think>")
    finishReason := none }

/-- The terminal chunk of `think_stream` (lines 108-124): it alone
carries the usage totals and the stop marker, with no delta content. -/
def terminalChunk (u : Usage) : Chunk :=
  { usage := some u
    content := none
    finishReason := some "stop" }

/-- The two item sinks of `think_stream`. -/
inductive QueueId where
  | content
  | thinking
deriving DecidableEq, Repr

/-- Observable actions of `think_stream` after the driver starts: a
chunk pushed onto the completions queue, the confirmed drain of one
sink (`queue.join()` returning, every enqueued item acknowledged via
`task_done`), or the cancellation of one consumer task. -/
inductive StreamEvent where
  | emit (c : Chunk)
  | drainConfirmed (q : QueueId)
  | consumerCancelled (q : QueueId)
deriving DecidableEq, Repr

/-- `zs` is an interleaving of `xs` and `ys`: it contains exactly the
items of both, each in its original relative order. This models the
arrival-order interleaving of the two concurrent consumers onto the
shared completions queue. -/
inductive Interleaving : List Chunk → List Chunk → List Chunk → Prop where
  | nil : Interleaving [] [] []
  | left {x xs ys zs} :
      Interleaving xs ys zs → Interleaving (x :: xs) ys (x :: zs)
  | right {y xs ys zs} :
      Interleaving xs ys zs → Interleaving xs (y :: ys) (y :: zs)

/-- Embeds `think_stream` (`src/app/think.py` lines 96-124) as the
event trace following the completion of the think task: the `body`
chunks the two consumers pushed (an interleaving of the translated
content items and thinking items), then the two drain confirmations
(`asyncio.gather` of the two `join` calls, lines 100-103), then the
two consumer cancellations (lines 104-105), then the terminal chunk
(lines 108-124). -/
def thinkStreamTrace (body : List Chunk) (u : Usage) : List StreamEvent :=
  body.map .emit ++
    [.drainConfirmed .content, .drainConfirmed .thinking,
      .consumerCancelled .content, .consumerCancelled .thinking,
      .emit (terminalChunk u)]

/-- The chunks pushed onto the completions queue during a trace, in
order. -/
def emittedChunks (evs : List StreamEvent) : List Chunk :=
  evs.filterMap fun e =>
    match e with
    | .emit c => some c
    | _ => none

/-- A chunk is terminal when it carries a finish reason. -/
def Chunk.isTerminal (c : Chunk) : Bool :=
  c.finishReason.isSome

/-- An objective exactly as created (PENDING, empty steps, no
answer): the state of every objective between its creation and the
first tick of its runner. -/
def ObjectiveState.isFresh (o : ObjectiveState) : Prop :=
  o.status = .pending ∧ o.steps = [] ∧ o.answer = none

/-- An objective settled by its runner: terminal status and a steps
sequence within the MAX_STEPS bound. -/
def ObjectiveState.isSettled (o : ObjectiveState) : Prop :=
  (o.status = .completed ∨ o.status = .failed) ∧ o.steps.length ≤ MAX_STEPS

/-- Every objective of the sequence is either freshly created or
settled: the shape of the sequence at every observation point of the
outer loop. -/
def okList (objs : List ObjectiveState) : Prop :=
  ∀ o ∈ objs, o.isFresh ∨ o.isSettled

/-! ## Helper lemmas -/

/-- Full computation of `runObjective` from a fresh objective (empty
steps), by cases on the stop-check oracle at step counts 3, 4 and 5. -/
theorem runObjective_fresh (stopO : Nat → String) (stepO : Nat → StepState)
    (o : ObjectiveState) (h : o.steps = []) :
    runObjective stopO stepO o =
      match shouldStopResult (stopO 3), shouldStopResult (stopO 4),
          shouldStopResult (stopO 5) with
      | some a, _, _ =>
        ({ o with
            status := .completed
            answer := some a
            steps := [stepO 0, stepO 1, stepO 2] },
          [.statusSet .in_progress, .stepAdded (stepO 0), .stepAdded (stepO 1),
            .stepAdded (stepO 2), .stopCheck 3 (some a), .statusSet .completed,
            .answerSet a])
      | none, some a, _ =>
        ({ o with
            status := .completed
            answer := some a
            steps := [stepO 0, stepO 1, stepO 2, stepO 3] },
          [.statusSet .in_progress, .stepAdded (stepO 0), .stepAdded (stepO 1),
            .stepAdded (stepO 2), .stopCheck 3 none, .stepAdded (stepO 3),
            .stopCheck 4 (some a), .statusSet .completed, .answerSet a])
      | none, none, some a =>
        ({ o with
            status := .completed
            answer := some a
            steps := [stepO 0, stepO 1, stepO 2, stepO 3, stepO 4] },
          [.statusSet .in_progress, .stepAdded (stepO 0), .stepAdded (stepO 1),
            .stepAdded (stepO 2), .stopCheck 3 none, .stepAdded (stepO 3),
            .stopCheck 4 none, .stepAdded (stepO 4), .stopCheck 5 (some a),
            .statusSet .completed, .answerSet a])
      | none, none, none =>
        ({ o with
            status := .failed
            steps := [stepO 0, stepO 1, stepO 2, stepO 3, stepO 4] },
          [.statusSet .in_progress, .stepAdded (stepO 0), .stepAdded (stepO 1),
            .stepAdded (stepO 2), .stopCheck 3 none, .stepAdded (stepO 3),
            .stopCheck 4 none, .stepAdded (stepO 4), .stopCheck 5 none,
            .statusSet .failed]) := by
  rcases h3 : shouldStopResult (stopO 3) with _ | a3 <;>
    rcases h4 : shouldStopResult (stopO 4) with _ | a4 <;>
      rcases h5 : shouldStopResult (stopO 5) with _ | a5 <;>
        simp [runObjective, runLoop, h, h3, h4, h5, MIN_STEPS, MAX_STEPS]


/-- The runner settles every fresh objective: terminal status and a
bounded steps sequence. -/
theorem runObjective_settles (stopO : Nat → String) (stepO : Nat → StepState)
    (o : ObjectiveState) (h : o.steps = []) :
    ((runObjective stopO stepO o).1.status = .completed ∨
      (runObjective stopO stepO o).1.status = .failed) ∧
    (runObjective stopO stepO o).1.steps.length ≤ MAX_STEPS := by
  rw [runObjective_fresh stopO stepO o h]
  rcases h3 : shouldStopResult (stopO 3) with _ | a3 <;>
    rcases h4 : shouldStopResult (stopO 4) with _ | a4 <;>
      rcases h5 : shouldStopResult (stopO 5) with _ | a5 <;>
        simp [h3, h4, h5, MAX_STEPS]

/-- The updated objectives sequence is the input followed by the
admitted proposals. -/
theorem admitObjectives_snd (props objs : List ObjectiveState) :
    (admitObjectives objs props).2 = objs ++ (admitObjectives objs props).1 := by
  induction props generalizing objs with
  | nil => simp [admitObjectives]
  | cons p rest ih =>
    rw [admitObjectives]
    by_cases hc : MAX_OBJECTIVES ≤ objs.length
    · simp [hc]
    · simp only [hc, if_false]
      rw [ih (objs ++ [p])]
      simp

/-- Characterization of admission below the cap: exactly the first
`MAX_OBJECTIVES - objs.length` proposals are admitted, in order. -/
theorem admitObjectives_spec (props objs : List ObjectiveState)
    (h : objs.length ≤ MAX_OBJECTIVES) :
    (admitObjectives objs props).1 =
      props.take (MAX_OBJECTIVES - objs.length) := by
  induction props generalizing objs with
  | nil => simp [admitObjectives]
  | cons p rest ih =>
    rw [admitObjectives]
    by_cases hc : MAX_OBJECTIVES ≤ objs.length
    · have h0 : MAX_OBJECTIVES - objs.length = 0 := by omega
      simp [hc, h0]
    · have h1 : (objs ++ [p]).length ≤ MAX_OBJECTIVES := by
        simp
        omega
      have h2 : MAX_OBJECTIVES - objs.length =
          (MAX_OBJECTIVES - (objs ++ [p]).length) + 1 := by
        simp
        omega
      simp only [hc, if_false]
      rw [ih (objs ++ [p]) h1, h2, List.take_succ_cons]

/-- A wave preserves the length of the sequence and settles every
objective: fresh ones are run to termination, settled ones are left
untouched. -/
theorem runWave_settles (stopO : Nat → Nat → String)
    (stepO : Nat → Nat → StepState) (i : Nat) (objs : List ObjectiveState)
    (h : okList objs) :
    (runWave stopO stepO i objs).length = objs.length ∧
    ∀ o ∈ runWave stopO stepO i objs, o.isSettled := by
  induction objs generalizing i with
  | nil => simp [runWave]
  | cons o rest ih =>
    have ho := h o (by simp)
    have hrest : okList rest := fun o2 h2 => h o2 (by simp [h2])
    obtain ⟨ihl, ihm⟩ := ih (i + 1) hrest
    rw [runWave]
    constructor
    · simp [ihl]
    · intro o2 h2
      rcases List.mem_cons.mp h2 with h2 | h2
      · subst h2
        rcases ho with ⟨hs, hsteps, hans⟩ | hset
        · simp only [hs, if_pos rfl]
          have := runObjective_settles (stopO i) (stepO i) o hsteps
          exact ⟨this.1, this.2⟩
        · have hnp : o.status ≠ ObjectiveStatus.pending := by
            rcases hset.1 with h | h <;> simp [h]
          simp [hnp]
          exact hset
      · exact ihm o2 h2


/-- A wave never changes the length of the objectives sequence. -/
theorem runWave_length (stopO : Nat → Nat → String)
    (stepO : Nat → Nat → StepState) (i : Nat) (objs : List ObjectiveState) :
    (runWave stopO stepO i objs).length = objs.length := by
  induction objs generalizing i with
  | nil => simp [runWave]
  | cons o rest ih => simp [runWave, ih]

/-- Objectives created from detector tasks are fresh. -/
theorem objectiveFromTask_fresh (t : DetectorTask) :
    (objectiveFromTask t).isFresh :=
  ⟨rfl, rfl, rfl⟩

/-- In a well-shaped sequence, every steps sequence is within the
MAX_STEPS bound. -/
theorem okList_steps_le (objs : List ObjectiveState) (h : okList objs) :
    ∀ o ∈ objs, o.steps.length ≤ MAX_STEPS := by
  intro o ho
  rcases h o ho with ⟨_, hs, _⟩ | hset
  · simp [hs, MAX_STEPS]
  · exact hset.2

/-- A settled objective has a terminal status. -/
theorem isSettled_terminal (o : ObjectiveState) (h : o.isSettled) :
    o.status.isTerminal = true := by
  rcases h.1 with hs | hs <;> simp [hs, ObjectiveStatus.isTerminal]

/-- A nonempty admission strictly grows the objectives sequence and
can only happen strictly below the cap. -/
theorem admitObjectives_nonempty (props objs : List ObjectiveState)
    (h : (admitObjectives objs props).1 ≠ []) :
    objs.length < MAX_OBJECTIVES ∧
    objs.length + 1 ≤ (admitObjectives objs props).2.length := by
  have hsnd := admitObjectives_snd props objs
  constructor
  · by_contra hc
    push_neg at hc
    cases props with
    | nil => exact h (by simp [admitObjectives])
    | cons p rest =>
      rw [admitObjectives] at h
      simp [hc] at h
  · rw [hsnd]
    have : 1 ≤ (admitObjectives objs props).1.length :=
      Nat.one_le_iff_ne_zero.mpr (by simpa using h)
    simp
    omega

/-- With enough fuel, the outer loop exits by its own exit
conditions. -/
theorem thinkLoop_terminates (stopO : Nat → Nat → String)
    (stepO : Nat → Nat → StepState) (detectO : Nat → List DetectorTask)
    (fuel round : Nat) (objs : List ObjectiveState)
    (hfuel : MAX_OBJECTIVES + 1 ≤ fuel + objs.length) (hpos : 1 ≤ fuel) :
    (thinkLoop stopO stepO detectO fuel round objs).2.2 = true := by
  induction fuel generalizing round objs with
  | zero => omega
  | succ fuel ih =>
    rw [thinkLoop]
    by_cases hcond :
        (objs.any fun o => o.status == .in_progress || o.status == .pending) = true
    · simp only [hcond, if_true]
      by_cases hemp : (admitObjectives (runWave stopO stepO 0 objs)
          ((detectO round).map objectiveFromTask)).1.isEmpty = true
      · simp [hemp]
      · simp only [hemp, if_false]
        have hne : (admitObjectives (runWave stopO stepO 0 objs)
            ((detectO round).map objectiveFromTask)).1 ≠ [] := by
          simpa [List.isEmpty_iff] using hemp
        obtain ⟨hlt, hgrow⟩ := admitObjectives_nonempty _ _ hne
        rw [runWave_length] at hlt hgrow
        have hM : MAX_OBJECTIVES = 3 := rfl
        have hA : MAX_OBJECTIVES + 1 ≤ fuel +
            (admitObjectives (runWave stopO stepO 0 objs)
              ((detectO round).map objectiveFromTask)).2.length := by
          omega
        have hB : 1 ≤ fuel := by omega
        exact ih (round + 1) _ hA hB
    · simp [hcond]


/-- Invariant of the outer loop: starting from a well-shaped sequence
within the cap, every observable snapshot respects both caps, the
final sequence is well-shaped and within the cap, and a proper exit
leaves every objective terminal. -/
theorem thinkLoop_inv (stopO : Nat → Nat → String)
    (stepO : Nat → Nat → StepState) (detectO : Nat → List DetectorTask)
    (fuel round : Nat) (objs : List ObjectiveState)
    (hok : okList objs) (hlen : objs.length ≤ MAX_OBJECTIVES) :
    (∀ snap ∈ (thinkLoop stopO stepO detectO fuel round objs).2.1,
      snap.length ≤ MAX_OBJECTIVES ∧
        ∀ o ∈ snap, o.steps.length ≤ MAX_STEPS) ∧
    (thinkLoop stopO stepO detectO fuel round objs).1.length ≤
      MAX_OBJECTIVES ∧
    okList (thinkLoop stopO stepO detectO fuel round objs).1 ∧
    ((thinkLoop stopO stepO detectO fuel round objs).2.2 = true →
      ∀ o ∈ (thinkLoop stopO stepO detectO fuel round objs).1,
        o.status.isTerminal = true) := by
  induction fuel generalizing round objs with
  | zero =>
    rw [thinkLoop]
    exact ⟨by simp, hlen, hok, by simp⟩
  | succ fuel ih =>
    by_cases hcond :
        (objs.any fun o =>
          o.status == .in_progress || o.status == .pending) = true
    case neg =>
      rw [thinkLoop]
      simp only [hcond, if_false]
      refine ⟨by simp, hlen, hok, ?_⟩
      intro _ o ho
      have hno : ¬(o.status == .in_progress || o.status == .pending) = true := by
        intro hx
        exact hcond (List.any_eq_true.mpr ⟨o, ho, hx⟩)
      rcases hok o ho with ⟨hp, _, _⟩ | hset
      · exact absurd (by simp [hp]) hno
      · exact isSettled_terminal o hset
    case pos =>
      have hw := runWave_settles stopO stepO 0 objs hok
      have hok1 : okList (runWave stopO stepO 0 objs) :=
        fun o h => Or.inr (hw.2 o h)
      have hlen1 : (runWave stopO stepO 0 objs).length ≤ MAX_OBJECTIVES := by
        rw [runWave_length]
        exact hlen
      have hfresh : ∀ p ∈ (detectO round).map objectiveFromTask,
          p.isFresh := by
        intro p hp
        rcases List.mem_map.mp hp with ⟨t, _, rfl⟩
        exact objectiveFromTask_fresh t
      have hsnd := admitObjectives_snd
        ((detectO round).map objectiveFromTask) (runWave stopO stepO 0 objs)
      have hspec := admitObjectives_spec
        ((detectO round).map objectiveFromTask) (runWave stopO stepO 0 objs)
        hlen1
      have hok2 : okList (admitObjectives (runWave stopO stepO 0 objs)
          ((detectO round).map objectiveFromTask)).2 := by
        rw [hsnd]
        intro o ho
        rcases List.mem_append.mp ho with ho | ho
        · exact hok1 o ho
        · rw [hspec] at ho
          exact Or.inl (hfresh o (List.take_subset _ _ ho))
      have hM : MAX_OBJECTIVES = 3 := rfl
      have hlen2 : (admitObjectives (runWave stopO stepO 0 objs)
          ((detectO round).map objectiveFromTask)).2.length ≤
            MAX_OBJECTIVES := by
        rw [hsnd, hspec]
        rw [List.length_append, List.length_take]
        omega
      rw [thinkLoop]
      simp only [hcond, if_true]
      by_cases hemp : ((admitObjectives (runWave stopO stepO 0 objs)
          ((detectO round).map objectiveFromTask)).1.isEmpty) = true
      · simp only [hemp, if_true]
        refine ⟨?_, hlen2, hok2, ?_⟩
        · intro snap hsnap
          simp only [List.mem_cons, List.not_mem_nil, or_false] at hsnap
          rcases hsnap with h | h
          · exact h ▸ ⟨hlen1, okList_steps_le _ hok1⟩
          · exact h ▸ ⟨hlen2, okList_steps_le _ hok2⟩
        · intro _ o ho
          have hadm : (admitObjectives (runWave stopO stepO 0 objs)
              ((detectO round).map objectiveFromTask)).1 = [] := by
            simpa [List.isEmpty_iff] using hemp
          rw [hsnd, hadm, List.append_nil] at ho
          exact isSettled_terminal o (hw.2 o ho)
      · simp only [hemp, Bool.false_eq_true, if_false]
        obtain ⟨ihsnap, ihlen, ihok, ihterm⟩ := ih (round + 1) _ hok2 hlen2
        refine ⟨?_, ihlen, ihok, ihterm⟩
        intro snap hsnap
        simp only [List.mem_cons] at hsnap
        rcases hsnap with h | h | h
        · exact h ▸ ⟨hlen1, okList_steps_le _ hok1⟩
        · exact h ▸ ⟨hlen2, okList_steps_le _ hok2⟩
        · exact ihsnap snap h

/-! ## Claim theorems -/

/-- C1: the stop-check reports "not ready" (returns `none`, no answer)
if and only if the lowercased completion text contains the sentinel
substring; in every other case the entire returned text, verbatim,
becomes the answer of the objective. The iff direction includes the
case of a text containing both the sentinel and a real answer: the
sentinel presence always wins. -/
theorem stop_check_sentinel_policy (res : String) :
    (shouldStopResult res = none ↔ pyIn cantAnswer (pyLower res) = true) ∧
    (pyIn cantAnswer (pyLower res) = false → shouldStopResult res = some res) := by
  unfold shouldStopResult
  rcases hb : pyIn cantAnswer (pyLower res) <;> simp [hb]

/-- Witness for C1: a text containing the sentinel together with a real
answer is still reported "not ready"; a plain answer text becomes the
answer verbatim. -/
theorem stop_check_sentinel_policy_witness :
    shouldStopResult
        ("I Can" ++ String.singleton apos ++ "t Answer. But Paris is the capital.") =
      none ∧
    shouldStopResult "Paris is the capital." = some "Paris is the capital." :=
  ⟨(stop_check_sentinel_policy _).1.mpr (by decide),
    (stop_check_sentinel_policy _).2 (by decide)⟩

/-- C2: an objective run to termination ends FAILED only if its steps
sequence has length exactly MAX_STEPS and the stop-check invoked
immediately before the FAILED transition, at that step count, reported
"not ready": the trace ends with a stop-check at MAX_STEPS returning
`none` directly followed by the FAILED status assignment. -/
theorem objective_fails_only_at_cap_after_stop_check
    (stopO : Nat → String) (stepO : Nat → StepState) (o : ObjectiveState)
    (hsteps : o.steps = [])
    (hfail : (runObjective stopO stepO o).1.status = .failed) :
    (runObjective stopO stepO o).1.steps.length = MAX_STEPS ∧
    ∃ pre, (runObjective stopO stepO o).2 =
      pre ++ [.stopCheck MAX_STEPS none, .statusSet .failed] := by
  rw [runObjective_fresh stopO stepO o hsteps] at hfail ⊢
  rcases h3 : shouldStopResult (stopO 3) with _ | a3 <;>
    rcases h4 : shouldStopResult (stopO 4) with _ | a4 <;>
      rcases h5 : shouldStopResult (stopO 5) with _ | a5 <;>
        simp [h3, h4, h5, MAX_STEPS] at hfail ⊢
  exact ⟨[.statusSet .in_progress, .stepAdded (stepO 0), .stepAdded (stepO 1),
    .stepAdded (stepO 2), .stopCheck 3 none, .stepAdded (stepO 3),
    .stopCheck 4 none, .stepAdded (stepO 4)], by simp⟩

/-- Witness for C2: with a stop-check oracle that always declines, the
run from the seed objective ends FAILED with 5 steps and the required
trace tail. -/
theorem objective_fails_only_at_cap_after_stop_check_witness :
    (runObjective (fun _ => cantAnswer) (fun _ => { short_name := "s" })
        (seedObjective "q")).1.steps.length = MAX_STEPS ∧
    ∃ pre, (runObjective (fun _ => cantAnswer) (fun _ => { short_name := "s" })
        (seedObjective "q")).2 =
      pre ++ [.stopCheck MAX_STEPS none, .statusSet .failed] :=
  objective_fails_only_at_cap_after_stop_check
    (fun _ => cantAnswer) (fun _ => { short_name := "s" })
    (seedObjective "q") rfl (by decide)

/-- C4: for an objective created fresh (PENDING, no steps, no answer)
and run to termination, the status assignments are exactly
IN_PROGRESS followed by one terminal status (so the transitions follow
PENDING → IN_PROGRESS → {COMPLETED | FAILED} and a terminal status,
being the last assignment, is never left); the answer is assigned
exactly once, directly at the transition to COMPLETED, and a FAILED
objective carries no answer. -/
theorem objective_status_and_answer_lifecycle
    (stopO : Nat → String) (stepO : Nat → StepState) (o : ObjectiveState)
    (hpend : o.status = .pending) (hsteps : o.steps = [])
    (hans : o.answer = none) :
    (∃ a pre,
        (runObjective stopO stepO o).1.status = .completed ∧
        (runObjective stopO stepO o).1.answer = some a ∧
        statusSets (runObjective stopO stepO o).2 = [.in_progress, .completed] ∧
        answerSets (runObjective stopO stepO o).2 = [a] ∧
        (runObjective stopO stepO o).2 =
          pre ++ [.statusSet .completed, .answerSet a]) ∨
      ((runObjective stopO stepO o).1.status = .failed ∧
        (runObjective stopO stepO o).1.answer = none ∧
        statusSets (runObjective stopO stepO o).2 = [.in_progress, .failed] ∧
        answerSets (runObjective stopO stepO o).2 = []) := by
  rw [runObjective_fresh stopO stepO o hsteps]
  rcases h3 : shouldStopResult (stopO 3) with _ | a3
  · rcases h4 : shouldStopResult (stopO 4) with _ | a4
    · rcases h5 : shouldStopResult (stopO 5) with _ | a5
      · simp only [h3, h4, h5]
        exact Or.inr (by simp [statusSets, answerSets, hans])
      · simp only [h3, h4, h5]
        exact Or.inl ⟨a5, [.statusSet .in_progress, .stepAdded (stepO 0),
          .stepAdded (stepO 1), .stepAdded (stepO 2), .stopCheck 3 none,
          .stepAdded (stepO 3), .stopCheck 4 none, .stepAdded (stepO 4),
          .stopCheck 5 (some a5)], by simp [statusSets, answerSets]⟩
    · simp only [h3, h4]
      exact Or.inl ⟨a4, [.statusSet .in_progress, .stepAdded (stepO 0),
        .stepAdded (stepO 1), .stepAdded (stepO 2), .stopCheck 3 none,
        .stepAdded (stepO 3), .stopCheck 4 (some a4)],
        by simp [statusSets, answerSets]⟩
  · simp only [h3]
    exact Or.inl ⟨a3, [.statusSet .in_progress, .stepAdded (stepO 0),
      .stepAdded (stepO 1), .stepAdded (stepO 2), .stopCheck 3 (some a3)],
      by simp [statusSets, answerSets]⟩

/-- Witness for C4: with a stop-check oracle that answers at the first
opportunity, the run from the seed objective takes the COMPLETED
branch of the lifecycle. -/
theorem objective_status_and_answer_lifecycle_witness :
    (∃ a pre,
        (runObjective (fun _ => "Paris.") (fun _ => { short_name := "s" })
            (seedObjective "q")).1.status = .completed ∧
        (runObjective (fun _ => "Paris.") (fun _ => { short_name := "s" })
            (seedObjective "q")).1.answer = some a ∧
        statusSets (runObjective (fun _ => "Paris.")
            (fun _ => { short_name := "s" }) (seedObjective "q")).2 =
          [.in_progress, .completed] ∧
        answerSets (runObjective (fun _ => "Paris.")
            (fun _ => { short_name := "s" }) (seedObjective "q")).2 = [a] ∧
        (runObjective (fun _ => "Paris.") (fun _ => { short_name := "s" })
            (seedObjective "q")).2 =
          pre ++ [.statusSet .completed, .answerSet a]) ∨
      ((runObjective (fun _ => "Paris.") (fun _ => { short_name := "s" })
            (seedObjective "q")).1.status = .failed ∧
        (runObjective (fun _ => "Paris.") (fun _ => { short_name := "s" })
            (seedObjective "q")).1.answer = none ∧
        statusSets (runObjective (fun _ => "Paris.")
            (fun _ => { short_name := "s" }) (seedObjective "q")).2 =
          [.in_progress, .failed] ∧
        answerSets (runObjective (fun _ => "Paris.")
            (fun _ => { short_name := "s" }) (seedObjective "q")).2 = []) :=
  objective_status_and_answer_lifecycle
    (fun _ => "Paris.") (fun _ => { short_name := "s" })
    (seedObjective "q") rfl rfl rfl

/-- C5: during a run from a fresh objective, every stop-check
invocation in the trace happens with at least MIN_STEPS steps
accumulated, and the first MIN_STEPS loop iterations (those with fewer
than MIN_STEPS steps) each append a step instead: the trace opens with
the IN_PROGRESS assignment followed by MIN_STEPS step appends. -/
theorem stop_check_only_after_min_steps
    (stopO : Nat → String) (stepO : Nat → StepState) (o : ObjectiveState)
    (hsteps : o.steps = []) :
    (∀ n r, RunEvent.stopCheck n r ∈ (runObjective stopO stepO o).2 →
      MIN_STEPS ≤ n) ∧
    (runObjective stopO stepO o).2.take (MIN_STEPS + 1) =
      [.statusSet .in_progress, .stepAdded (stepO 0), .stepAdded (stepO 1),
        .stepAdded (stepO 2)] := by
  rw [runObjective_fresh stopO stepO o hsteps]
  rcases h3 : shouldStopResult (stopO 3) with _ | a3 <;>
    rcases h4 : shouldStopResult (stopO 4) with _ | a4 <;>
      rcases h5 : shouldStopResult (stopO 5) with _ | a5 <;>
        constructor <;>
          first
            | decide
            | (intro n r hmem
               simp [MIN_STEPS] at hmem ⊢
               rcases hmem with h | h | h <;> omega)
            | (intro n r hmem
               simp [MIN_STEPS] at hmem ⊢
               omega)
            | simp [MIN_STEPS]

/-- Witness for C5: concrete run with an always-declining stop-check
oracle. -/
theorem stop_check_only_after_min_steps_witness :
    (∀ n r, RunEvent.stopCheck n r ∈
        (runObjective (fun _ => cantAnswer) (fun _ => { short_name := "s" })
          (seedObjective "q")).2 → MIN_STEPS ≤ n) ∧
    (runObjective (fun _ => cantAnswer) (fun _ => { short_name := "s" })
        (seedObjective "q")).2.take (MIN_STEPS + 1) =
      [.statusSet .in_progress, .stepAdded { short_name := "s" },
        .stepAdded { short_name := "s" }, .stepAdded { short_name := "s" }] :=
  stop_check_only_after_min_steps
    (fun _ => cantAnswer) (fun _ => { short_name := "s" })
    (seedObjective "q") rfl

/-- C3: batch admission is one proposal at a time, stopping as soon as
the objectives count reaches MAX_OBJECTIVES with the remainder of the
batch discarded (the admitted proposals are exactly the first
`MAX_OBJECTIVES - existing` ones); the updated sequence never exceeds
MAX_OBJECTIVES; a runner never lets a steps sequence exceed MAX_STEPS
(final state and trace); and over a whole session every observable
snapshot of the objectives sequence respects both caps. -/
theorem objectives_and_steps_bounded
    (objs props : List ObjectiveState) (hlen : objs.length ≤ MAX_OBJECTIVES)
    (stopO1 : Nat → String) (stepO1 : Nat → StepState) (o : ObjectiveState)
    (hsteps : o.steps = [])
    (stopO : Nat → Nat → String) (stepO : Nat → Nat → StepState)
    (detectO : Nat → List DetectorTask) (q : String) :
    (admitObjectives objs props).1 =
      props.take (MAX_OBJECTIVES - objs.length) ∧
    (admitObjectives objs props).2 =
      objs ++ props.take (MAX_OBJECTIVES - objs.length) ∧
    (admitObjectives objs props).2.length ≤ MAX_OBJECTIVES ∧
    (runObjective stopO1 stepO1 o).1.steps.length ≤ MAX_STEPS ∧
    stepAddCount (runObjective stopO1 stepO1 o).2 ≤ MAX_STEPS ∧
    (∀ snap ∈ (thinkRun stopO stepO detectO q).2.1,
      snap.length ≤ MAX_OBJECTIVES ∧
        ∀ o2 ∈ snap, o2.steps.length ≤ MAX_STEPS) ∧
    (thinkRun stopO stepO detectO q).1.length ≤ MAX_OBJECTIVES ∧
    (∀ o2 ∈ (thinkRun stopO stepO detectO q).1,
      o2.steps.length ≤ MAX_STEPS) := by
  have hspec := admitObjectives_spec props objs hlen
  have hsnd := admitObjectives_snd props objs
  have hM : MAX_OBJECTIVES = 3 := rfl
  have hseed : okList [seedObjective q] := by
    intro o2 ho2
    simp only [List.mem_singleton] at ho2
    subst ho2
    exact Or.inl ⟨rfl, rfl, rfl⟩
  have hinv := thinkLoop_inv stopO stepO detectO (MAX_OBJECTIVES + 1) 0
    [seedObjective q] hseed (by simp [hM])
  refine ⟨hspec, by rw [hsnd, hspec], ?_, ?_, ?_,
    hinv.1, hinv.2.1, okList_steps_le _ hinv.2.2.1⟩
  · rw [hsnd, hspec, List.length_append, List.length_take]
    omega
  · exact (runObjective_settles stopO1 stepO1 o hsteps).2
  · rw [runObjective_fresh stopO1 stepO1 o hsteps]
    rcases h3 : shouldStopResult (stopO1 3) with _ | a3 <;>
      rcases h4 : shouldStopResult (stopO1 4) with _ | a4 <;>
        rcases h5 : shouldStopResult (stopO1 5) with _ | a5 <;>
          simp [h3, h4, h5, stepAddCount, MAX_STEPS]

/-- Witness for C3, on the scenario of the spec: 3 proposals arriving
while 1 objective exists yield exactly the first 2 admitted. -/
theorem objectives_and_steps_bounded_witness :
    (admitObjectives [seedObjective "q"]
        [objectiveFromTask { completion_criteria := "c1", description := "d1", short_name := "n1" },
          objectiveFromTask { completion_criteria := "c2", description := "d2", short_name := "n2" },
          objectiveFromTask { completion_criteria := "c3", description := "d3", short_name := "n3" }]).1 =
      [objectiveFromTask { completion_criteria := "c1", description := "d1", short_name := "n1" },
        objectiveFromTask { completion_criteria := "c2", description := "d2", short_name := "n2" }] :=
  ((objectives_and_steps_bounded [seedObjective "q"]
      [objectiveFromTask { completion_criteria := "c1", description := "d1", short_name := "n1" },
        objectiveFromTask { completion_criteria := "c2", description := "d2", short_name := "n2" },
        objectiveFromTask { completion_criteria := "c3", description := "d3", short_name := "n3" }] (by decide)
      (fun _ => cantAnswer) (fun _ => { short_name := "s" })
      (seedObjective "q") rfl
      (fun _ _ => cantAnswer) (fun _ _ => { short_name := "s" })
      (fun _ => []) "q").1).trans rfl

/-- C8: for every session (all completion oracles), the outer loop
exits by its own exit conditions (stable quiescence: a detector round
admitting zero objectives while nothing is running, after every wave
ran to completion), and at exit every objective of the sequence is in
a terminal state — the loop never exits while any objective is
PENDING or IN_PROGRESS. -/
theorem outer_loop_terminates_quiescent
    (stopO : Nat → Nat → String) (stepO : Nat → Nat → StepState)
    (detectO : Nat → List DetectorTask) (q : String) :
    (thinkRun stopO stepO detectO q).2.2 = true ∧
    ∀ o ∈ (thinkRun stopO stepO detectO q).1,
      o.status.isTerminal = true := by
  have hseed : okList [seedObjective q] := by
    intro o2 ho2
    simp only [List.mem_singleton] at ho2
    subst ho2
    exact Or.inl ⟨rfl, rfl, rfl⟩
  have hterm := thinkLoop_terminates stopO stepO detectO
    (MAX_OBJECTIVES + 1) 0 [seedObjective q]
    (by norm_num [MAX_OBJECTIVES]) (by norm_num [MAX_OBJECTIVES])
  have hinv := thinkLoop_inv stopO stepO detectO (MAX_OBJECTIVES + 1) 0
    [seedObjective q] hseed (by norm_num [MAX_OBJECTIVES])
  exact ⟨hterm, hinv.2.2.2 hterm⟩

/-- The claim-worded knowledge blocks coincide with a filter-then-map
over the objectives. -/
theorem claimKnowledgeBlocks_eq (objs : List ObjectiveState) :
    claimKnowledgeBlocks objs =
      (objs.filter fun o => o.status = ObjectiveStatus.completed).map
        (fun o => "## " ++ o.short_name ++ "\n" ++ pyStr o.answer) := by
  induction objs with
  | nil => rfl
  | cons o rest ih =>
    by_cases h : o.status = ObjectiveStatus.completed <;>
      simp [claimKnowledgeBlocks, h, ih]

/-- C6: the knowledge context handed to the synthesis completion call
is exactly the newline-joined blocks of the COMPLETED objectives, each
a heading of the short_name followed by the answer text; an objective
whose status is not COMPLETED (in particular FAILED) contributes
nothing at all to the context; and when no objective is COMPLETED the
synthesis call is still issued, carrying an empty knowledge context. -/
theorem synthesis_context_completed_only
    (uq : String) (objs : List ObjectiveState)
    (compO : SynthesisCall → String) :
    (answerUser uq objs compO).1.question = uq ∧
    (answerUser uq objs compO).1.knowledge =
      String.intercalate "\n" (claimKnowledgeBlocks objs) ∧
    (∀ l1 l2 o2, o2.status ≠ ObjectiveStatus.completed →
      answersContext (l1 ++ o2 :: l2) = answersContext (l1 ++ l2)) ∧
    ((∀ o2 ∈ objs, o2.status ≠ ObjectiveStatus.completed) →
      (answerUser uq objs compO).1 = { question := uq, knowledge := "" }) := by
  refine ⟨rfl, ?_, ?_, ?_⟩
  · show answersContext objs = _
    rw [claimKnowledgeBlocks_eq]
    rfl
  · intro l1 l2 o2 h2
    unfold answersContext
    rw [List.filter_append, List.filter_append, List.filter_cons_of_neg]
    simpa using h2
  · intro hall
    show (⟨uq, answersContext objs⟩ : SynthesisCall) = _
    have : objs.filter (fun o => o.status = ObjectiveStatus.completed) = [] := by
      rw [List.filter_eq_nil]
      intro o2 ho2
      simpa using hall o2 ho2
    unfold answersContext
    rw [this]
    rfl

/-- Witness for C6: a session whose only objective FAILED still
yields a synthesis call with an empty knowledge context. -/
theorem synthesis_context_completed_only_witness :
    (answerUser "q"
        [{ completion_criteria := "c", description := "d", short_name := "n",
            status := ObjectiveStatus.failed }]
        (fun _ => "final answer")).1 =
      { question := "q", knowledge := "" } :=
  (synthesis_context_completed_only "q"
      [{ completion_criteria := "c", description := "d", short_name := "n",
          status := ObjectiveStatus.failed }]
      (fun _ => "final answer")).2.2.2 (by decide)

/-- A positive stop-check returns its input text as the answer. -/
theorem shouldStopResult_some (r a : String)
    (h : shouldStopResult r = some a) : a = r := by
  unfold shouldStopResult at h
  by_cases hc : pyIn cantAnswer (pyLower r) = true
  · rw [if_pos hc] at h
    cases h
  · rw [if_neg hc] at h
    injection h with h
    exact h.symm

/-- C9: for objectives whose answer field is coherent with their
status (truthy answer exactly when COMPLETED — which the runner
guarantees, second conjunct, since stop-check texts are non-empty by
the adapter contract), the two rendered groups of the detector digest
partition the objectives exactly as COMPLETED versus not COMPLETED,
rendered as "description: answer" and "description: status" pairs;
and the detector returns between 0 and 3 candidate objectives, each
carrying the short_name, description and completion_criteria of one
validated task. -/
theorem detector_digest_partition_and_bounds :
    (∀ objs : List ObjectiveState,
      (∀ o ∈ objs,
        (pyTruthy o.answer = true ↔ o.status = ObjectiveStatus.completed)) →
      digestAnswered objs =
        (objs.filter fun o => o.status = ObjectiveStatus.completed).map
          (fun o => o.description ++ ": " ++ pyStr o.answer) ∧
      digestUnanswered objs =
        (objs.filter fun o => ¬ o.status = ObjectiveStatus.completed).map
          (fun o => o.description ++ ": " ++ statusStr o.status)) ∧
    (∀ stopO : Nat → String, ∀ stepO : Nat → StepState,
      ∀ o : ObjectiveState, o.steps = [] → o.answer = none →
      (∀ n, stopO n ≠ "") →
      (pyTruthy (runObjective stopO stepO o).1.answer = true ↔
        (runObjective stopO stepO o).1.status = ObjectiveStatus.completed)) ∧
    (∀ res : DetectorRes,
      (detectNewObjectives res).length ≤ 3 ∧
      ∀ o2 ∈ detectNewObjectives res, ∃ t ∈ res.tasks,
        o2.short_name = t.short_name ∧ o2.description = t.description ∧
        o2.completion_criteria = t.completion_criteria) := by
  refine ⟨?_, ?_, ?_⟩
  · intro objs hco
    constructor
    · unfold digestAnswered
      rw [List.filter_congr ?_]
      intro o ho
      have h := hco o ho
      cases hb : pyTruthy o.answer
      · have hP : ¬ o.status = ObjectiveStatus.completed := by
          intro hP
          rw [hb] at h
          exact absurd (h.mpr hP) (by simp)
        simp [hP]
      · have hP : o.status = ObjectiveStatus.completed := h.mp hb
        simp [hP]
    · unfold digestUnanswered
      rw [List.filter_congr ?_]
      intro o ho
      have h := hco o ho
      cases hb : pyTruthy o.answer
      · have hP : ¬ o.status = ObjectiveStatus.completed := by
          intro hP
          rw [hb] at h
          exact absurd (h.mpr hP) (by simp)
        simp [hP]
      · have hP : o.status = ObjectiveStatus.completed := h.mp hb
        simp [hP]
  · intro stopO stepO o hsteps hans hne
    rw [runObjective_fresh stopO stepO o hsteps]
    rcases h3 : shouldStopResult (stopO 3) with _ | a3
    · rcases h4 : shouldStopResult (stopO 4) with _ | a4
      · rcases h5 : shouldStopResult (stopO 5) with _ | a5
        · simp [h3, h4, h5, pyTruthy, hans]
        · have ha := shouldStopResult_some _ _ h5
          simp [h3, h4, h5, pyTruthy, ha, hne 5]
      · have ha := shouldStopResult_some _ _ h4
        simp [h3, h4, pyTruthy, ha, hne 4]
    · have ha := shouldStopResult_some _ _ h3
      simp [h3, pyTruthy, ha, hne 3]
  · intro res
    constructor
    · unfold detectNewObjectives
      rw [List.length_map]
      exact res.tasks_le_three
    · intro o2 ho2
      rcases List.mem_map.mp ho2 with ⟨t, ht, rfl⟩
      exact ⟨t, ht, rfl, rfl, rfl⟩

/-- Witness for C9: a concrete coherent pair of objectives (one
COMPLETED with a non-empty answer, one FAILED without answer) is
partitioned by the digest exactly along COMPLETED versus not. -/
theorem detector_digest_partition_and_bounds_witness :
    digestAnswered
        [{ completion_criteria := "c", description := "d1", short_name := "n1",
            status := ObjectiveStatus.completed, answer := some "A" },
          { completion_criteria := "c", description := "d2", short_name := "n2",
            status := ObjectiveStatus.failed }] =
      (([{ completion_criteria := "c", description := "d1", short_name := "n1",
            status := ObjectiveStatus.completed, answer := some "A" },
          { completion_criteria := "c", description := "d2", short_name := "n2",
            status := ObjectiveStatus.failed }] : List ObjectiveState).filter
          fun o => o.status = ObjectiveStatus.completed).map
        (fun o => o.description ++ ": " ++ pyStr o.answer) :=
  (detector_digest_partition_and_bounds.1
    [{ completion_criteria := "c", description := "d1", short_name := "n1",
        status := ObjectiveStatus.completed, answer := some "A" },
      { completion_criteria := "c", description := "d2", short_name := "n2",
        status := ObjectiveStatus.failed }] (by decide)).1

/-- An interleaving preserves the total number of items. -/
theorem Interleaving.length_eq {xs ys zs : List Chunk}
    (h : Interleaving xs ys zs) : zs.length = xs.length + ys.length := by
  induction h with
  | nil => rfl
  | left _ ih =>
    simp only [List.length_cons, ih]
    omega
  | right _ ih =>
    simp only [List.length_cons, ih]
    omega

/-- An interleaving contains exactly the items of its two sources. -/
theorem Interleaving.mem_iff {xs ys zs : List Chunk}
    (h : Interleaving xs ys zs) (c : Chunk) : c ∈ zs ↔ c ∈ xs ∨ c ∈ ys := by
  induction h with
  | nil => simp
  | left _ ih =>
    simp only [List.mem_cons, ih]
    tauto
  | right _ ih =>
    simp only [List.mem_cons, ih]
    tauto

/-- Emitted chunks of a trace opening with a run of emit events. -/
theorem emittedChunks_map_emit_append (l : List Chunk)
    (rest : List StreamEvent) :
    emittedChunks (l.map StreamEvent.emit ++ rest) =
      l ++ emittedChunks rest := by
  induction l with
  | nil => rfl
  | cons c tl ih =>
    simp only [List.map_cons, List.cons_append]
    rw [emittedChunks, List.filterMap_cons]
    rw [emittedChunks] at ih
    simp [ih]

/-- C7: in streaming mode, both sinks are confirmed fully drained
before the two consumer tasks are cancelled (the trace is a run of
emits, then the two drain confirmations, then the two cancellations,
then the terminal emit); exactly one terminal chunk is pushed, it is
the last chunk with no chunk after it and it alone carries the usage
totals and the stop marker; every chunk of the body (one per enqueued
item of either sink, arrival-order interleaved) carries usage `none`
and no finish reason. -/
theorem streaming_terminal_chunk_protocol
    (contents thinkings : List String) (body : List Chunk) (u : Usage)
    (hint : Interleaving (contents.map contentChunk)
      (thinkings.map thinkingChunk) body) :
    emittedChunks (thinkStreamTrace body u) = body ++ [terminalChunk u] ∧
    (emittedChunks (thinkStreamTrace body u)).getLast? =
      some (terminalChunk u) ∧
    (emittedChunks (thinkStreamTrace body u)).filter Chunk.isTerminal =
      [terminalChunk u] ∧
    (∀ c ∈ body, c.usage = none ∧ c.finishReason = none) ∧
    body.length = contents.length + thinkings.length ∧
    (∀ s ∈ contents, contentChunk s ∈ body) ∧
    (∀ s ∈ thinkings, thinkingChunk s ∈ body) ∧
    (∃ emits, thinkStreamTrace body u =
      emits ++ [.drainConfirmed .content, .drainConfirmed .thinking,
        .consumerCancelled .content, .consumerCancelled .thinking,
        .emit (terminalChunk u)] ∧
      ∀ e ∈ emits, ∃ c, e = StreamEvent.emit c) := by
  have hchunks : emittedChunks (thinkStreamTrace body u) =
      body ++ [terminalChunk u] := by
    unfold thinkStreamTrace
    rw [emittedChunks_map_emit_append]
    rfl
  have hbody : ∀ c ∈ body, (∃ s ∈ contents, c = contentChunk s) ∨
      (∃ s ∈ thinkings, c = thinkingChunk s) := by
    intro c hc
    rcases (hint.mem_iff c).mp hc with h | h
    · rcases List.mem_map.mp h with ⟨s, hs, rfl⟩
      exact Or.inl ⟨s, hs, rfl⟩
    · rcases List.mem_map.mp h with ⟨s, hs, rfl⟩
      exact Or.inr ⟨s, hs, rfl⟩
  have hnone : ∀ c ∈ body, c.usage = none ∧ c.finishReason = none := by
    intro c hc
    rcases hbody c hc with ⟨s, _, rfl⟩ | ⟨s, _, rfl⟩ <;> exact ⟨rfl, rfl⟩
  refine ⟨hchunks, ?_, ?_, hnone, ?_, ?_, ?_, body.map .emit, rfl, ?_⟩
  · rw [hchunks]
    exact List.getLast?_concat _
  · rw [hchunks, List.filter_append]
    have h1 : body.filter Chunk.isTerminal = [] := by
      rw [List.filter_eq_nil]
      intro c hc
      simp [Chunk.isTerminal, (hnone c hc).2]
    rw [h1]
    rfl
  · rw [hint.length_eq]
    simp
  · intro s hs
    exact (hint.mem_iff _).mpr (Or.inl (List.mem_map_of_mem _ hs))
  · intro s hs
    exact (hint.mem_iff _).mpr (Or.inr (List.mem_map_of_mem _ hs))
  · intro e he
    rcases List.mem_map.mp he with ⟨c, _, rfl⟩
    exact ⟨c, rfl⟩

/-- Witness for C7: a concrete session body of two thinking chunks and
one content chunk, followed by the lone terminal chunk. -/
theorem streaming_terminal_chunk_protocol_witness :
    emittedChunks (thinkStreamTrace
        [thinkingChunk "t1", contentChunk "done", thinkingChunk "t2"]
        { prompt_tokens := 3, completion_tokens := 5 }) =
      [thinkingChunk "t1", contentChunk "done", thinkingChunk "t2"] ++
        [terminalChunk { prompt_tokens := 3, completion_tokens := 5 }] :=
  (streaming_terminal_chunk_protocol ["done"] ["t1", "t2"]
    [thinkingChunk "t1", contentChunk "done", thinkingChunk "t2"]
    { prompt_tokens := 3, completion_tokens := 5 }
    (Interleaving.right (Interleaving.left
      (Interleaving.right Interleaving.nil)))).1

/-- C10: every objective created from a detector proposal enters the
sequence with status PENDING, an empty knowledges sequence, an empty
steps sequence, an empty history and no answer; the seed objective is
created the same way except for exactly one pre-populated knowledge
item wrapping the raw user question. -/
theorem objective_creation_defaults (t : DetectorTask) (q : String) :
    (objectiveFromTask t).status = ObjectiveStatus.pending ∧
    (objectiveFromTask t).knowledges = [] ∧
    (objectiveFromTask t).steps = [] ∧
    (objectiveFromTask t).history = [] ∧
    (objectiveFromTask t).answer = none ∧
    (seedObjective q).status = ObjectiveStatus.pending ∧
    (seedObjective q).steps = [] ∧
    (seedObjective q).history = [] ∧
    (seedObjective q).answer = none ∧
    (seedObjective q).knowledges =
      [{ description := q, short_name := "User question",
          source := "User message" }] :=
  ⟨rfl, rfl, rfl, rfl, rfl, rfl, rfl, rfl, rfl, rfl⟩

end DeepSearch
